import Mathlib

/-!
Verification of the Admission Control & Memoization Layer of the
newschecker bot: the sliding-window rate limiter
(`src/newschecker/utils/rate_limiting.py`, class `RateLimiter`) and the
TTL-aware bounded cache (`src/newschecker/core/cache.py`, class `NewsCache`).

Modelling conventions:
- `time.time()` returns a real-valued timestamp; the model uses integer
  time (`Int`).  Every operation of the two components only adds,
  subtracts and compares timestamps, so integer time is faithful to the
  control flow; all concrete scenarios in the spec use whole seconds.
- Python `defaultdict(deque)` maps are modelled as total functions that
  return `[]` for absent keys: `defaultdict` materialises an empty deque
  on first access, so an absent key and an empty queue are
  indistinguishable to every operation.
- The statistics dictionaries of `RateLimiter` (`total_requests`,
  `blocked_requests`, per-user counters) are not modelled: no claim
  mentions them and they feed back into no decision.
- Thread locks are not modelled: every public operation runs under the
  component's single coarse lock, so the sequential semantics is exact.
-/

namespace RateLimiting

/-- window_size = 60 seconds (RateLimiter.__init__). -/
def windowSize : Int := 60

/-- cleanup_interval = 300 seconds (RateLimiter.__init__). -/
def cleanupInterval : Int := 300

/-- vip_multiplier = 5 (RateLimiter.__init__). -/
def vipMultiplier : Nat := 5

/-- operation_limits table from RateLimiter.__init__ (requests per window per user). -/
def initOperationLimits : List (String × Nat) :=
  [("text_analysis", 10), ("url_analysis", 5), ("image_analysis", 3), ("general", 15)]

/-- global_limits table from RateLimiter.__init__ (aggregate requests per window). -/
def initGlobalLimits : List (String × Nat) :=
  [("text_analysis", 100), ("url_analysis", 50), ("image_analysis", 30), ("general", 200)]

/-- State of a RateLimiter instance. `userOps u o` is the timestamp deque
`self.user_operations[u][o]`, `globalOps o` is `self.global_operations[o]`,
`vipUsers` is the VIP set, `lastCleanup` is `self.last_cleanup`, and
`opLimits`/`glLimits` are the (admin-updatable) limit tables. -/
structure RLState where
  userOps : Int → String → List Int
  globalOps : String → List Int
  vipUsers : Int → Bool
  lastCleanup : Int
  opLimits : List (String × Nat)
  glLimits : List (String × Nat)

/-- RateLimiter.__init__: empty windows, no VIPs, `last_cleanup = time.time()`
(the construction instant `t0`), the two limit tables as configured. -/
def RLState.init (t0 : Int) : RLState :=
  ⟨fun _ _ => [], fun _ => [], fun _ => false, t0, initOperationLimits, initGlobalLimits⟩

/-- RateLimiter.add_vip_user. -/
def addVipUser (uid : Int) (s : RLState) : RLState :=
  { s with vipUsers := fun u => if u = uid then true else s.vipUsers u }

/-- RateLimiter._cleanup_old_entries: a no-op unless at least
`cleanup_interval` seconds have elapsed since the previous cleanup;
when it fires it pops, from the FRONT of every user queue and every
global queue, timestamps `< now - window_size`, and records `now` as the
last cleanup instant.  (Deleting emptied queues is invisible in the
total-function representation.) -/
def cleanupOldEntries (now : Int) (s : RLState) : RLState :=
  if now - s.lastCleanup < cleanupInterval then s
  else
    let cutoff := now - windowSize
    { s with
      userOps := fun u o => (s.userOps u o).dropWhile (fun t => t < cutoff)
      globalOps := fun o => (s.globalOps o).dropWhile (fun t => t < cutoff)
      lastCleanup := now }

/-- RateLimiter._get_user_limit: the per-operation base limit (falling
back to the 'general' entry), multiplied by `vip_multiplier` for VIPs. -/
def getUserLimit (s : RLState) (uid : Int) (op : String) : Nat :=
  let base := (s.opLimits.lookup op).getD ((s.opLimits.lookup "general").getD 0)
  if s.vipUsers uid then base * vipMultiplier else base

/-- RateLimiter._get_global_limit: per-operation global limit with
'general' fallback. -/
def getGlobalLimit (s : RLState) (op : String) : Nat :=
  (s.glLimits.lookup op).getD ((s.glLimits.lookup "general").getD 0)

/-- Count of the timestamps of `q` strictly inside the window, i.e. the
`sum(1 for timestamp in queue if timestamp > cutoff_time)` expression of
RateLimiter.is_allowed. -/
def countInWindow (cutoff : Int) (q : List Int) : Nat :=
  (q.filter (fun t => cutoff < t)).length

/-- Minimum of a list with an explicit default, i.e. Python
`min(iterable, default=d)`. -/
def minD (d : Int) : List Int → Int
  | [] => d
  | x :: xs => xs.foldl min x

/-- The `min((t for t in queue if t > cutoff_time), default=current_time)`
expression of RateLimiter.is_allowed. -/
def oldestInWindow (now cutoff : Int) (q : List Int) : Int :=
  minD now (q.filter (fun t => cutoff < t))

/-- The `max(0, window_size - (current_time - oldest_in_window))` retry
hint computed by RateLimiter.is_allowed on a denial. -/
def retryAfterTime (now : Int) (q : List Int) : Int :=
  max 0 (windowSize - (now - oldestInWindow now (now - windowSize) q))

/-- Result dictionary of RateLimiter.is_allowed: either the denial shape
(reason, limit, current_count, retry_after, is_vip) or the grant shape
(user_limit, user_remaining, global_limit, global_remaining, is_vip). -/
inductive Decision where
  | denied (reason : String) (limit : Nat) (currentCount : Nat)
      (retryAfter : Int) (isVip : Bool)
  | granted (userLimit : Nat) (userRemaining : Int) (globalLimit : Nat)
      (globalRemaining : Int) (isVip : Bool)
deriving DecidableEq

/-- The 'allowed' field of the result dictionary. -/
def Decision.ok : Decision → Bool
  | .denied _ _ _ _ _ => false
  | .granted _ _ _ _ _ => true

/-- The 'reason' field of the result dictionary (absent on a grant). -/
def Decision.reasonOf : Decision → Option String
  | .denied r _ _ _ _ => some r
  | .granted _ _ _ _ _ => none

/-- RateLimiter.is_allowed: periodic cleanup, then the subject-window
check, then the global-window check; a timestamp is appended to the
subject queue and the global queue only when both checks pass. -/
def isAllowed (uid : Int) (op : String) (now : Int) (s0 : RLState) :
    Decision × RLState :=
  let s := cleanupOldEntries now s0
  let userQueue := s.userOps uid op
  let userLimit := getUserLimit s uid op
  let cutoff := now - windowSize
  let userCount := countInWindow cutoff userQueue
  if userLimit ≤ userCount then
    (.denied "user_limit_exceeded" userLimit userCount
       (retryAfterTime now userQueue) (s.vipUsers uid), s)
  else
    let globalQueue := s.globalOps op
    let globalLimit := getGlobalLimit s op
    let globalCount := countInWindow cutoff globalQueue
    if globalLimit ≤ globalCount then
      (.denied "global_limit_exceeded" globalLimit globalCount
         (retryAfterTime now globalQueue) (s.vipUsers uid), s)
    else
      (.granted userLimit ((userLimit : Int) - userCount - 1) globalLimit
         ((globalLimit : Int) - globalCount - 1) (s.vipUsers uid),
       { s with
         userOps := fun u o =>
           if u = uid ∧ o = op then userQueue ++ [now] else s.userOps u o
         globalOps := fun o =>
           if o = op then globalQueue ++ [now] else s.globalOps o })

/-- Run a sequence of checks for one subject and operation at the given
times, collecting the decisions. -/
def runChecks (uid : Int) (op : String) (times : List Int) (s : RLState) :
    List Decision × RLState :=
  match times with
  | [] => ([], s)
  | t :: ts =>
    let r := isAllowed uid op t s
    let rest := runChecks uid op ts r.2
    (r.1 :: rest.1, rest.2)

/-- State after the three admitted image_analysis checks of the C1
scenario (base limit 3). -/
def c1sThree : RLState :=
  (runChecks 7 "image_analysis" [1, 2, 3] (RLState.init 0)).2

/-- Per-queue effect of the periodic cleanup: it only ever drops a
prefix of each queue, hence every queue of the cleaned state is a
sublist of the original one. -/
theorem cleanup_sublist (now : Int) (s : RLState) (u : Int) (o : String) :
    ((cleanupOldEntries now s).userOps u o).Sublist (s.userOps u o) ∧
    ((cleanupOldEntries now s).globalOps o).Sublist (s.globalOps o) := by
  unfold cleanupOldEntries
  split
  · exact ⟨List.Sublist.refl _, List.Sublist.refl _⟩
  · exact ⟨List.dropWhile_sublist _, List.dropWhile_sublist _⟩

/-- C1: a Check call that returns a denial (user_limit_exceeded or
global_limit_exceeded) records no timestamp: the post-state is exactly
the post-cleanup state, and in particular the subject's queue and the
operation's global queue gain nothing (they are sublists of their
pre-state values).  Concretely, with userLimit = 3 (image_analysis),
three in-window checks are granted, the fourth is denied with
user_limit_exceeded, the subject's in-window count stays at 3, and the
global image_analysis window stays at [1, 2, 3]. -/
theorem quota_denial_records_nothing :
    (∀ uid op now s d s2, isAllowed uid op now s = (d, s2) → d.ok = false →
      s2 = cleanupOldEntries now s ∧
      (s2.userOps uid op).Sublist (s.userOps uid op) ∧
      (s2.globalOps op).Sublist (s.globalOps op)) ∧
    (runChecks 7 "image_analysis" [1, 2, 3, 4] (RLState.init 0)).1.map
        Decision.ok = [true, true, true, false] ∧
    (runChecks 7 "image_analysis" [1, 2, 3, 4] (RLState.init 0)).1.getLast?
      = some (.denied "user_limit_exceeded" 3 3 57 false) ∧
    (runChecks 7 "image_analysis" [1, 2, 3, 4] (RLState.init 0)).2.userOps 7
        "image_analysis" = [1, 2, 3] ∧
    countInWindow (4 - windowSize)
        ((runChecks 7 "image_analysis" [1, 2, 3, 4] (RLState.init 0)).2.userOps
          7 "image_analysis") = 3 ∧
    (runChecks 7 "image_analysis" [1, 2, 3, 4] (RLState.init 0)).2.globalOps
        "image_analysis" = [1, 2, 3] := by
  refine ⟨?_, by decide, by decide, by decide, by decide, by decide⟩
  intro uid op now s d s2 h hok
  simp only [isAllowed] at h
  split at h
  · injection h with h1 h2
    subst h1; subst h2
    exact ⟨rfl, (cleanup_sublist now s uid op).1, (cleanup_sublist now s uid op).2⟩
  · split at h
    · injection h with h1 h2
      subst h1; subst h2
      exact ⟨rfl, (cleanup_sublist now s uid op).1, (cleanup_sublist now s uid op).2⟩
    · injection h with h1 h2
      subst h1
      simp [Decision.ok] at hok

/-- Witness for C1: the fourth check of the scenario is a concrete
denial, and the general conjunct applies to it. -/
theorem quota_denial_records_nothing_witness :
    ((isAllowed 7 "image_analysis" 4 c1sThree).1).ok = false ∧
    (isAllowed 7 "image_analysis" 4 c1sThree).2 = cleanupOldEntries 4 c1sThree ∧
    ((isAllowed 7 "image_analysis" 4 c1sThree).2.userOps 7
        "image_analysis").Sublist (c1sThree.userOps 7 "image_analysis") :=
  have h := quota_denial_records_nothing.1 7 "image_analysis" 4 c1sThree
    (isAllowed 7 "image_analysis" 4 c1sThree).1
    (isAllowed 7 "image_analysis" 4 c1sThree).2 rfl (by decide)
  ⟨by decide, h.1, h.2.1⟩

/-- C10: an operation string outside the four configured operations
falls back to the 'general' limits in both `_get_user_limit` and
`_get_global_limit` — the per-subject base limit and the global limit
applied are those configured for 'general', rather than the lookup
failing or the operation being unlimited. -/
theorem unknown_op_general_fallback (t0 uid : Int) (op : String)
    (hop : op ∉ ["text_analysis", "url_analysis", "image_analysis", "general"]) :
    getUserLimit (RLState.init t0) uid op
      = getUserLimit (RLState.init t0) uid "general" ∧
    getGlobalLimit (RLState.init t0) op
      = getGlobalLimit (RLState.init t0) "general" := by
  have h1 : (op == "text_analysis") = false := by
    rw [beq_eq_false_iff_ne]
    exact fun he => hop (by simp [he])
  have h2 : (op == "url_analysis") = false := by
    rw [beq_eq_false_iff_ne]
    exact fun he => hop (by simp [he])
  have h3 : (op == "image_analysis") = false := by
    rw [beq_eq_false_iff_ne]
    exact fun he => hop (by simp [he])
  have h4 : (op == "general") = false := by
    rw [beq_eq_false_iff_ne]
    exact fun he => hop (by simp [he])
  constructor
  · simp [getUserLimit, RLState.init, initOperationLimits, List.lookup,
      h1, h2, h3, h4]
  · simp [getGlobalLimit, RLState.init, initGlobalLimits, List.lookup,
      h1, h2, h3, h4]

/-- Witness for C10: the unknown operation 'ocr' is charged against the
'general' limits. -/
theorem unknown_op_general_fallback_witness :
    getUserLimit (RLState.init 0) 7 "ocr"
      = getUserLimit (RLState.init 0) 7 "general" ∧
    getGlobalLimit (RLState.init 0) "ocr"
      = getGlobalLimit (RLState.init 0) "general" :=
  unknown_op_general_fallback 0 7 "ocr" (by decide)

set_option maxRecDepth 40000 in
/-- C7: with the text_analysis base limit of 10 and vipMultiplier = 5, a
VIP subject's first 50 in-window checks are granted and the 51st is
denied with user_limit_exceeded, while a non-VIP subject under the same
operation sees its 11th check denied; adding a VIP never changes the
global limit, and scales exactly the per-subject limit by the
multiplier. -/
theorem vip_scaling :
    ((runChecks 99 "text_analysis" ((List.range 51).map (fun n => (n : Int) + 1))
        (addVipUser 99 (RLState.init 0))).1.map Decision.ok)
      = List.replicate 50 true ++ [false] ∧
    ((runChecks 99 "text_analysis" ((List.range 51).map (fun n => (n : Int) + 1))
        (addVipUser 99 (RLState.init 0))).1.getLast?).map Decision.reasonOf
      = some (some "user_limit_exceeded") ∧
    ((runChecks 7 "text_analysis" ((List.range 11).map (fun n => (n : Int) + 1))
        (RLState.init 0)).1.map Decision.ok)
      = List.replicate 10 true ++ [false] ∧
    ((runChecks 7 "text_analysis" ((List.range 11).map (fun n => (n : Int) + 1))
        (RLState.init 0)).1.getLast?).map Decision.reasonOf
      = some (some "user_limit_exceeded") ∧
    (∀ (s : RLState) (vip : Int) (op : String),
      getGlobalLimit (addVipUser vip s) op = getGlobalLimit s op) ∧
    (∀ (s : RLState) (uid : Int) (op : String),
      getUserLimit (addVipUser uid s) uid op =
        ((s.opLimits.lookup op).getD ((s.opLimits.lookup "general").getD 0))
          * vipMultiplier) := by
  refine ⟨by decide, by decide, by decide, by decide,
    fun s vip op => rfl, fun s uid op => ?_⟩
  simp [getUserLimit, addVipUser]

/-- C8, counterexample: Check does NOT prune the two windows per call.
From a limiter constructed at t0 = 0, checks at times 1, 100, 200 admit
three requests; a fourth check at time 290 (periodic cleanup does not
fire, since 290 - 0 < 300) returns with the subject window AND the
global window still holding timestamp 1, which is older than
now - windowSize = 230 — refuting the claim that after any Check neither
window contains a timestamp older than now - windowSize. -/
theorem check_leaves_stale_timestamps :
    ((runChecks 7 "general" [1, 100, 200, 290] (RLState.init 0)).2.userOps 7
      "general") = [1, 100, 200, 290] ∧
    ((runChecks 7 "general" [1, 100, 200, 290] (RLState.init 0)).2.globalOps
      "general") = [1, 100, 200, 290] ∧
    (1 : Int) < 290 - windowSize := by
  refine ⟨by decide, by decide, by decide⟩

/-- C8, amended: the prune is periodic and global, not per-call.  A
Check prunes nothing when less than cleanupInterval = 300 s have passed
since the last cleanup (out-of-window timestamps are merely excluded
from the counts by the strict `timestamp > now - windowSize` filter);
when the cleanup does fire it prunes EVERY subject window and EVERY
global window, dropping from the front of each queue the timestamps
below now - windowSize (which, on the time-ordered queues the limiter
builds, removes exactly the stale ones) and records the cleanup instant;
beyond this cleanup, a Check mutates no window other than the two it
appends to on an allowed result. -/
theorem periodic_global_prune :
    (∀ (now : Int) (s : RLState), now - s.lastCleanup < cleanupInterval →
      cleanupOldEntries now s = s) ∧
    (∀ (now : Int) (s : RLState), cleanupInterval ≤ now - s.lastCleanup →
      (∀ (u : Int) (o : String), (cleanupOldEntries now s).userOps u o =
        (s.userOps u o).dropWhile (fun t => t < now - windowSize)) ∧
      (∀ o : String, (cleanupOldEntries now s).globalOps o =
        (s.globalOps o).dropWhile (fun t => t < now - windowSize)) ∧
      (cleanupOldEntries now s).lastCleanup = now) ∧
    (∀ (uid : Int) (op : String) (now : Int) (s : RLState) (u : Int)
        (o : String), ¬ (u = uid ∧ o = op) →
      (isAllowed uid op now s).2.userOps u o =
        (cleanupOldEntries now s).userOps u o) ∧
    (∀ (uid : Int) (op o : String) (now : Int) (s : RLState), o ≠ op →
      (isAllowed uid op now s).2.globalOps o =
        (cleanupOldEntries now s).globalOps o) ∧
    (∀ (cutoff : Int) (q : List Int), List.Pairwise (· ≤ ·) q →
      ∀ t ∈ q.dropWhile (fun t => t < cutoff), ¬ t < cutoff) := by
  refine ⟨?_, ?_, ?_, ?_, ?_⟩
  · intro now s h
    unfold cleanupOldEntries
    rw [if_pos h]
  · intro now s h
    unfold cleanupOldEntries
    rw [if_neg (not_lt.mpr h)]
    exact ⟨fun u o => rfl, fun o => rfl, rfl⟩
  · intro uid op now s u o hne
    simp only [isAllowed]
    split
    · rfl
    · split
      · rfl
      · simp only
        rw [if_neg hne]
  · intro uid op o now s hne
    simp only [isAllowed]
    split
    · rfl
    · split
      · rfl
      · simp only
        rw [if_neg hne]
  · intro cutoff q hsorted t ht
    induction q with
    | nil => simp at ht
    | cons x xs ih =>
      rw [List.pairwise_cons] at hsorted
      cases hd : (decide (x < cutoff)) with
      | true =>
        rw [List.dropWhile_cons] at ht
        simp only [hd, if_true] at ht
        exact ih hsorted.2 ht
      | false =>
        rw [List.dropWhile_cons] at ht
        simp only [hd] at ht
        have hx : ¬ x < cutoff := by simpa using hd
        rcases List.mem_cons.mp ht with rfl | hmem
        · exact hx
        · have := hsorted.1 t hmem
          omega

/-- Witness for C8 (amended): a Check before the interval elapses prunes
nothing; once 300 s have passed the cleanup rewrites every queue by the
front-drop, and only the checked pair's windows are ever appended to. -/
theorem periodic_global_prune_witness :
    cleanupOldEntries 10 (RLState.init 0) = RLState.init 0 ∧
    (cleanupOldEntries 400
        ((runChecks 7 "general" [1, 100, 200] (RLState.init 0)).2)).userOps 7
      "general" =
      (((runChecks 7 "general" [1, 100, 200] (RLState.init 0)).2).userOps 7
        "general").dropWhile (fun t => t < 400 - windowSize) ∧
    (isAllowed 7 "general" 20 (RLState.init 0)).2.userOps 8 "general" =
      (cleanupOldEntries 20 (RLState.init 0)).userOps 8 "general" ∧
    ¬ (3 : Int) < 2 :=
  ⟨periodic_global_prune.1 10 (RLState.init 0) (by decide),
   (periodic_global_prune.2.1 400
     ((runChecks 7 "general" [1, 100, 200] (RLState.init 0)).2)
     (by decide)).1 7 "general",
   periodic_global_prune.2.2.1 7 "general" 20 (RLState.init 0) 8 "general"
     (by decide),
   periodic_global_prune.2.2.2.2 2 [3, 5] (by decide) 3 (by decide)⟩

/-- Folding `min` over a list yields an element of seed-or-list. -/
theorem foldl_min_mem (xs : List Int) (x : Int) : xs.foldl min x ∈ x :: xs := by
  induction xs generalizing x with
  | nil => simp
  | cons y ys ih =>
    show List.foldl min (min x y) ys ∈ x :: y :: ys
    rcases List.mem_cons.mp (ih (min x y)) with h1 | h1
    · rw [h1]
      rcases min_choice x y with hc | hc <;> rw [hc] <;> simp
    · simp [h1]

/-- The default of Python's `min(gen, default=d)` is irrelevant on a
non-empty collection. -/
theorem minD_default_irrel (d1 d2 : Int) {l : List Int} (h : l ≠ []) :
    minD d1 l = minD d2 l := by
  cases l with
  | nil => contradiction
  | cons x xs => rfl

/-- Admission-guard count bound: if the newest timestamp m saw fewer
than L in-window predecessors when it was appended, then at any instant
from m on, at most L timestamps of the queue are in-window. -/
theorem count_le_of_last_admission (q0 : List Int) (m c : Int) (L : Nat)
    (hc : m - windowSize ≤ c)
    (hinv : countInWindow (m - windowSize) q0 < L) :
    countInWindow c (q0 ++ [m]) ≤ L := by
  unfold countInWindow at *
  rw [List.filter_append, List.length_append]
  have hsub : (q0.filter (fun t => c < t)).Sublist
      (q0.filter (fun t => m - windowSize < t)) := by
    apply List.monotone_filter_right
    intro a ha
    simp only [decide_eq_true_eq] at ha ⊢
    omega
  have h1 := hsub.length_le
  have h2 : (List.filter (fun t => decide (c < t)) [m]).length ≤ 1 :=
    List.length_filter_le _ _
  omega

/-- A window filter with a later cutoff that retains as many timestamps
retains exactly the same ones. -/
theorem window_filters_eq (q : List Int) (c1 c2 : Int) (hle : c1 ≤ c2)
    (hlen : (q.filter (fun t => c1 < t)).length =
      (q.filter (fun t => c2 < t)).length) :
    q.filter (fun t => c2 < t) = q.filter (fun t => c1 < t) := by
  apply List.Sublist.eq_of_length
  · apply List.monotone_filter_right
    intro a ha
    simp only [decide_eq_true_eq] at ha ⊢
    omega
  · exact hlen.symm

/-- Fold a sequence of checks given as (subject, operation, time)
triples, keeping only the final state. -/
def runChecksMulti (calls : List (Int × String × Int)) (s : RLState) :
    RLState :=
  calls.foldl (fun acc c => (isAllowed c.1 c.2.1 c.2.2 acc).2) s

/-- State with the image_analysis global window filled to its limit of
30 by ten distinct subjects (three admitted requests each). -/
def c6global : RLState :=
  runChecksMulti ((List.range 30).map
    (fun n => (((n / 3 : Nat) : Int) + 1, "image_analysis", (n : Int))))
    (RLState.init 0)

/-- C6: on every denied Check the returned retry hint is exactly
`windowSize - (now - oldestTimestampInWindow)` clamped to ≥ 0 (computed
from the subject window for user denials and from the global window for
global denials), it never exceeds `windowSize` when the window holds
only past timestamps, and on a repeated denied check later with the same
window content (no new admissions) it does not increase.  The
monotonicity conjunct carries the hypothesis
`countInWindow (m - windowSize) q0 < L` for the queue `q0 ++ [m]`: this
is precisely what the admission guard established when the newest
timestamp m was appended, since denied checks append nothing. -/
theorem retry_after_denial_semantics :
    (∀ (uid : Int) (op : String) (now : Int) (s : RLState) (l c : Nat)
        (ra : Int) (v : Bool),
      (isAllowed uid op now s).1 = .denied "user_limit_exceeded" l c ra v →
      ra = retryAfterTime now ((cleanupOldEntries now s).userOps uid op)) ∧
    (∀ (uid : Int) (op : String) (now : Int) (s : RLState) (l c : Nat)
        (ra : Int) (v : Bool),
      (isAllowed uid op now s).1 = .denied "global_limit_exceeded" l c ra v →
      ra = retryAfterTime now ((cleanupOldEntries now s).globalOps op)) ∧
    (∀ (now : Int) (q : List Int), 0 ≤ retryAfterTime now q) ∧
    (∀ (now : Int) (q : List Int), (∀ t ∈ q, t ≤ now) →
      retryAfterTime now q ≤ windowSize) ∧
    (∀ (q0 : List Int) (m now now2 : Int) (L : Nat),
      (∀ t ∈ q0 ++ [m], t ≤ now) →
      countInWindow (m - windowSize) q0 < L →
      L ≤ countInWindow (now - windowSize) (q0 ++ [m]) →
      L ≤ countInWindow (now2 - windowSize) (q0 ++ [m]) →
      now ≤ now2 →
      retryAfterTime now2 (q0 ++ [m]) ≤ retryAfterTime now (q0 ++ [m])) := by
  refine ⟨?_, ?_, ?_, ?_, ?_⟩
  · intro uid op now s l c ra v h
    simp only [isAllowed] at h
    split at h
    · exact ((Decision.denied.inj h).2.2.2.1).symm
    · split at h
      · exact absurd (Decision.denied.inj h).1 (by decide)
      · exact Decision.noConfusion h
  · intro uid op now s l c ra v h
    simp only [isAllowed] at h
    split at h
    · exact absurd (Decision.denied.inj h).1 (by decide)
    · split at h
      · exact ((Decision.denied.inj h).2.2.2.1).symm
      · exact Decision.noConfusion h
  · intro now q
    exact le_max_left 0 _
  · intro now q hq
    unfold retryAfterTime oldestInWindow
    rcases hfe : q.filter (fun t => now - windowSize < t) with _ | ⟨x, xs⟩
    · simp only [minD, windowSize]
      omega
    · have hmem : minD now (x :: xs) ∈ x :: xs := foldl_min_mem xs x
      have hinq : minD now (x :: xs) ∈ q := by
        apply List.mem_of_mem_filter (p := fun t => now - windowSize < t)
        rw [hfe]
        exact hmem
      have hle := hq _ hinq
      apply max_le
      · simp [windowSize]
      · simp only [windowSize] at *
        omega
  · intro q0 m now now2 L hb hinv h1 h2 h12
    have hm : m ≤ now := hb m (by simp)
    have hcN : countInWindow (now - windowSize) (q0 ++ [m]) = L :=
      le_antisymm (count_le_of_last_admission q0 m _ L (by omega) hinv) h1
    have hc2 : countInWindow (now2 - windowSize) (q0 ++ [m]) = L :=
      le_antisymm (count_le_of_last_admission q0 m _ L (by omega) hinv) h2
    have hL1 : 1 ≤ L := by omega
    unfold countInWindow at hcN hc2
    have hfe : (q0 ++ [m]).filter (fun t => now2 - windowSize < t)
        = (q0 ++ [m]).filter (fun t => now - windowSize < t) := by
      apply window_filters_eq _ _ _ (by omega)
      rw [hcN, hc2]
    have hneN : (q0 ++ [m]).filter (fun t => now - windowSize < t) ≠ [] := by
      intro hnil
      rw [hnil] at hcN
      simp at hcN
      omega
    have hold : oldestInWindow now2 (now2 - windowSize) (q0 ++ [m])
        = oldestInWindow now (now - windowSize) (q0 ++ [m]) := by
      unfold oldestInWindow
      rw [hfe]
      exact minD_default_irrel now2 now hneN
    unfold retryAfterTime
    rw [hold]
    exact max_le_max le_rfl (by omega)

set_option maxRecDepth 40000 in
/-- Witness for C6: the concrete user and global denials return exactly
the clamped formula value, the hint is within the window size, and a
repeated denial two seconds later does not increase it. -/
theorem retry_after_denial_semantics_witness :
    (57 : Int) = retryAfterTime 4
      ((cleanupOldEntries 4 c1sThree).userOps 7 "image_analysis") ∧
    (30 : Int) = retryAfterTime 30
      ((cleanupOldEntries 30 c6global).globalOps "image_analysis") ∧
    (0 : Int) ≤ retryAfterTime 5 [1, 2] ∧
    retryAfterTime 4 [1, 2, 3] ≤ windowSize ∧
    retryAfterTime 6 ([1, 2] ++ [3]) ≤ retryAfterTime 4 ([1, 2] ++ [3]) :=
  ⟨retry_after_denial_semantics.1 7 "image_analysis" 4 c1sThree 3 3 57 false
     (by decide),
   retry_after_denial_semantics.2.1 99 "image_analysis" 30 c6global 30 30 30
     false (by decide),
   retry_after_denial_semantics.2.2.1 5 [1, 2],
   retry_after_denial_semantics.2.2.2.1 4 [1, 2, 3] (by decide),
   retry_after_denial_semantics.2.2.2.2 [1, 2] 3 4 6 3 (by decide) (by decide)
     (by decide) (by decide) (by decide)⟩

end RateLimiting

namespace NewsCache

/-- JSON values appearing inside structured cache contents (the claims
exercise numbers and strings). -/
inductive JVal where
  | num (n : Int)
  | str (s : String)
deriving DecidableEq

/-- Content passed to NewsCache.set/get: either a flat string or a
structured dict given in insertion order. -/
inductive Content where
  | str (s : String)
  | dict (l : List (String × JVal))
deriving DecidableEq

/-- Lexicographic code-point comparison of character lists, the order
Python uses to compare strings. -/
def charListLt : List Char → List Char → Bool
  | [], [] => false
  | [], _ :: _ => true
  | _ :: _, [] => false
  | a :: as, b :: bs =>
    if a.toNat < b.toNat then true
    else if b.toNat < a.toNat then false
    else charListLt as bs

/-- Python's `<` on strings: strict lexicographic code-point order. -/
def strLt (a b : String) : Bool := charListLt a.data b.data

/-- Stable insertion of a key/value pair into a key-sorted list: the new
pair goes before the first strictly greater key, hence after earlier
pairs with equal keys. -/
def insertByKey (x : String × JVal) : List (String × JVal) → List (String × JVal)
  | [] => [x]
  | y :: ys => if strLt x.1 y.1 then x :: y :: ys else y :: insertByKey x ys

/-- The key-sorted reordering performed by `json.dumps(content,
sort_keys=True)`.  Stable sorting is a unique function of the comparator,
so this structurally recursive insertion sort computes exactly what
Python's sort does. -/
def sortByKey (l : List (String × JVal)) : List (String × JVal) :=
  l.foldl (fun acc x => insertByKey x acc) []

/-- Rendering of one JSON scalar as `json.dumps` prints it (string
escaping is omitted: no claim involves characters that need escapes). -/
def JVal.render : JVal → String
  | .num n => toString n
  | .str s => "\"" ++ s ++ "\""

/-- The `content_str` of NewsCache._generate_key: the content itself for
flat strings, the deterministic key-sorted serialization for dicts. -/
def canonicalForm : Content → String
  | .str s => s
  | .dict l =>
    "\x7b" ++ String.intercalate ", "
      ((sortByKey l).map (fun p => "\"" ++ p.1 ++ "\": " ++ p.2.render)) ++ "\x7d"

/-- NewsCache._generate_key builds `f"{cache_type}:{content_str}"` and
returns its sha256 hexdigest.  The digest is modelled by its preimage:
sha256 is assumed collision-free on the inputs arising here, so equality
and inequality of modelled keys coincide with those of the real digests. -/
def generateKey (content : Content) (cacheType : String) : String :=
  cacheType ++ ":" ++ canonicalForm content

/-- NewsCache._calculate_size: cached values are modelled as strings and
their size is the UTF-8 byte length of the value, as the source computes
for each of its three branches (serialized dict, string, stringified
other). -/
def calculateSize (value : String) : Nat := value.utf8ByteSize

/-- One record of `self.cache`: value, cache_type, created_time,
expiry_time (None = never expires), size, access_count. -/
structure CacheEntry where
  value : String
  cacheType : String
  createdTime : Int
  expiryTime : Option Int
  size : Nat
  accessCount : Nat
deriving DecidableEq

/-- State of a NewsCache instance: the keyed entry store (in dict
insertion order), the access_times dict, the cumulative statistics
counters, and the byte budget. -/
structure CacheState where
  cache : List (String × CacheEntry)
  accessTimes : List (String × Int)
  hits : Nat
  misses : Nat
  sets : Nat
  evictions : Nat
  memoryUsageBytes : Int
  maxMemoryBytes : Int
deriving DecidableEq

/-- ttl_config from NewsCache.__init__ (seconds). -/
def ttlConfig : List (String × Int) :=
  [("analysis", 7200), ("search", 1800), ("url_content", 3600),
   ("source_verification", 1800), ("user_stats", 300), ("default", 1800)]

/-- Cache state with a given byte budget.  The source constructor takes
`max_memory_mb` and multiplies by 1024²; `initBytes` parametrises by the
resulting byte count directly so the spec's `limitBytes = 1000` scenarios
are expressible at their original scale. -/
def initBytes (limitBytes : Int) : CacheState :=
  ⟨[], [], 0, 0, 0, 0, 0, limitBytes⟩

/-- NewsCache.__init__(max_memory_mb). -/
def init (maxMemoryMb : Int) : CacheState := initBytes (maxMemoryMb * 1024 * 1024)

/-- NewsCache._is_expired: entries with no expiry never expire; equality
with the expiry instant is NOT expired (strict `>`). -/
def isExpired (now : Int) (e : CacheEntry) : Bool :=
  match e.expiryTime with
  | none => false
  | some t => now > t

/-- Deletion of the binding of `k` from a Python dict, which holds at
most one binding per key. -/
def alErase {β : Type} (k : String) (l : List (String × β)) : List (String × β) :=
  l.filter (fun p => p.1 ≠ k)

/-- Python dict assignment `d[k] = v`: overwrites in place (keeping the
key's insertion position) or appends a new binding at the end. -/
def alSet {β : Type} (k : String) (v : β) : List (String × β) → List (String × β)
  | [] => [(k, v)]
  | p :: ps => if p.1 = k then (k, v) :: ps else p :: alSet k v ps

/-- NewsCache._remove_entry: subtract the entry's size from the usage
counter, delete it from the store, and drop its access time. -/
def removeEntry (k : String) (s : CacheState) : CacheState :=
  let s1 :=
    match s.cache.lookup k with
    | some e =>
      { s with
        memoryUsageBytes := s.memoryUsageBytes - e.size
        cache := alErase k s.cache }
    | none => s
  { s1 with accessTimes := alErase k s1.accessTimes }

/-- NewsCache._cleanup_expired (the background sweep's expiry pass):
collect the expired keys, then remove each, incrementing `evictions`
once per removal. -/
def cleanupExpired (now : Int) (s : CacheState) : CacheState :=
  (s.cache.filter (fun p => isExpired now p.2)).foldl
    (fun acc p =>
      let acc' := removeEntry p.1 acc
      { acc' with evictions := acc'.evictions + 1 }) s

/-- Stable insertion for the LRU ordering `sorted(access_times.items(),
key=lambda x: x[1])`. -/
def insortTime (x : String × Int) : List (String × Int) → List (String × Int)
  | [] => [x]
  | y :: ys => if x.2 < y.2 then x :: y :: ys else y :: insortTime x ys

/-- Stable ascending sort by access time (Python's `sorted` is stable;
stable sorting is uniquely determined, so this insertion sort computes
the same list). -/
def sortByTime (l : List (String × Int)) : List (String × Int) :=
  l.foldl (fun acc x => insortTime x acc) []

/-- Eviction scan of NewsCache._enforce_memory_limit: walk the entries
in least-recently-accessed-first order, stopping as soon as usage is at
or below 80% of the budget, removing each still-present entry and
counting an eviction.  Python compares against `max_memory_bytes * 0.8`
with float arithmetic; the model uses the exact rational 4/5, which
agrees on the integer byte counts of every scenario in the spec. -/
def evictLoop : List (String × Int) → CacheState → CacheState
  | [], s => s
  | (k, _) :: rest, s =>
    if (s.memoryUsageBytes : ℚ) ≤ (s.maxMemoryBytes : ℚ) * (4 / 5 : ℚ) then s
    else
      let s' :=
        if (s.cache.lookup k).isSome then
          let s2 := removeEntry k s
          { s2 with evictions := s2.evictions + 1 }
        else s
      evictLoop rest s'

/-- NewsCache._enforce_memory_limit: a no-op while usage is within the
budget; above it, evict in LRU order down to the 80% low-water mark. -/
def enforceMemoryLimit (s : CacheState) : CacheState :=
  if s.memoryUsageBytes ≤ s.maxMemoryBytes then s
  else evictLoop (sortByTime s.accessTimes) s

/-- TTL resolution of NewsCache.set: the custom TTL if given, else the
cache_type's configured TTL, else the 'default' TTL. -/
def resolveTtl (cacheType : String) (customTtl : Option Int) : Int :=
  customTtl.getD ((ttlConfig.lookup cacheType).getD
    ((ttlConfig.lookup "default").getD 0))

/-- Unconditional tail of NewsCache.set (lines 181-203): remove any
existing entry under the key, resolve the TTL (positive TTLs expire at
`now + ttl`, others never), store the fresh entry, stamp the access
time, add the size to the usage counter and count the set. -/
def storeEntry (key value cacheType : String) (customTtl : Option Int)
    (now : Int) (entrySize : Nat) (s : CacheState) : CacheState :=
  let s1 := if (s.cache.lookup key).isSome then removeEntry key s else s
  let ttl := resolveTtl cacheType customTtl
  let expiry : Option Int := if ttl > 0 then some (now + ttl) else none
  { s1 with
    cache := alSet key ⟨value, cacheType, now, expiry, entrySize, 0⟩ s1.cache
    accessTimes := alSet key now s1.accessTimes
    memoryUsageBytes := s1.memoryUsageBytes + entrySize
    sets := s1.sets + 1 }

/-- NewsCache.set: when the entry is NEW and would push usage above the
budget, run `_enforce_memory_limit` and reject (returning false, with
the store as the enforcement left it) if usage plus the new size still
exceeds the budget; in every other case store unconditionally and
return true. -/
def set (content : Content) (value : String) (cacheType : String)
    (customTtl : Option Int) (now : Int) (s : CacheState) :
    Bool × CacheState :=
  let key := generateKey content cacheType
  let entrySize := calculateSize value
  if s.memoryUsageBytes + entrySize > s.maxMemoryBytes ∧
      (s.cache.lookup key).isNone then
    let s1 := enforceMemoryLimit s
    if s1.memoryUsageBytes + entrySize > s1.maxMemoryBytes then (false, s1)
    else (true, storeEntry key value cacheType customTtl now entrySize s1)
  else (true, storeEntry key value cacheType customTtl now entrySize s)

/-- NewsCache.get: a missing key counts a miss; an expired entry is
removed as a side effect and counts a miss; a live entry refreshes its
access time, bumps its access count, counts a hit and returns the
value. -/
def get (content : Content) (cacheType : String) (now : Int)
    (s : CacheState) : Option String × CacheState :=
  let key := generateKey content cacheType
  match s.cache.lookup key with
  | none => (none, { s with misses := s.misses + 1 })
  | some e =>
    if isExpired now e then
      let s1 := removeEntry key s
      (none, { s1 with misses := s1.misses + 1 })
    else
      (some e.value,
       { s with
         accessTimes := alSet key now s.accessTimes
         cache := alSet key { e with accessCount := e.accessCount + 1 } s.cache
         hits := s.hits + 1 })

/-- One NewsCache.set invocation (arguments plus its clock reading). -/
structure SetCall where
  content : Content
  value : String
  cacheType : String
  customTtl : Option Int
  now : Int

/-- Key a set call will store under. -/
def SetCall.key (c : SetCall) : String := generateKey c.content c.cacheType

/-- Fold a sequence of set calls over a cache state. -/
def runSets (calls : List SetCall) (s : CacheState) : CacheState :=
  calls.foldl (fun acc c => (set c.content c.value c.cacheType c.customTtl c.now acc).2) s

/-- Value of 400 ASCII bytes for the C3 scenario. -/
def v400 : String := String.mk (List.replicate 400 'a')

/-- Cache state of the C3 scenario after the first two 400-byte inserts
into a 1000-byte budget. -/
def c3sTwo : CacheState :=
  (set (.str "k2") v400 "default" none 1
    (set (.str "k1") v400 "default" none 0 (initBytes 1000)).2).2

set_option maxRecDepth 4000 in
/-- C3, counterexample: with limitBytes = 1000 and two 400-byte entries
already stored (usedBytes = 800, increasing access times), the third
400-byte Set does NOT succeed and does NOT evict the least recently
accessed entry: it returns false, the new key is absent, and the
oldest-accessed entry k1 is still present — refuting the claim that the
third Set succeeds by evicting down to 800 and leaves exactly the two
most recently accessed entries. -/
theorem third_set_not_evicting :
    c3sTwo.memoryUsageBytes = 800 ∧
    c3sTwo.accessTimes = [(generateKey (.str "k1") "default", 0),
      (generateKey (.str "k2") "default", 1)] ∧
    ¬ ((set (.str "k3") v400 "default" none 2 c3sTwo).1 = true ∧
       (set (.str "k3") v400 "default" none 2 c3sTwo).2.cache.lookup
         (generateKey (.str "k1") "default") = none) := by
  refine ⟨by decide, by decide, ?_⟩
  intro h
  have hf : (set (.str "k3") v400 "default" none 2 c3sTwo).1 = false := by decide
  rw [h.1] at hf
  exact absurd hf (by decide)

set_option maxRecDepth 4000 in
/-- C3, amended: with limitBytes = 1000, after two 400-byte Sets under
distinct keys with increasing lastAccessedAt, the third 400-byte Set is
rejected — it returns false and leaves the store unchanged, holding
exactly the first two entries with usedBytes = 800 — because
Set-triggered eviction only fires when usedBytes already exceeds
limitBytes, which a fresh-key insert can never cause. -/
theorem third_set_rejected_store_unchanged :
    (set (.str "k3") v400 "default" none 2 c3sTwo).1 = false ∧
    (set (.str "k3") v400 "default" none 2 c3sTwo).2 = c3sTwo ∧
    c3sTwo.memoryUsageBytes = 800 ∧
    (c3sTwo.cache.lookup (generateKey (.str "k1") "default")).isSome = true ∧
    (c3sTwo.cache.lookup (generateKey (.str "k2") "default")).isSome = true ∧
    (c3sTwo.cache.lookup (generateKey (.str "k3") "default")).isSome = false ∧
    c3sTwo.evictions = 0 := by
  refine ⟨by decide, by decide, by decide, by decide, by decide, by decide, by decide⟩

/-- Dict assignment stores the assigned value under the assigned key. -/
theorem lookup_alSet_self {β : Type} (k : String) (v : β)
    (l : List (String × β)) : (alSet k v l).lookup k = some v := by
  induction l with
  | nil => simp [alSet]
  | cons p ps ih =>
    obtain ⟨a, b⟩ := p
    by_cases h : a = k
    · simp [alSet, h]
    · have hb : (k == a) = false := by
        rw [beq_eq_false_iff_ne]
        exact fun he => h he.symm
      simp [alSet, h, List.lookup, hb, ih]

/-- Dict assignment leaves every other key's binding unchanged. -/
theorem lookup_alSet_ne {β : Type} {k k' : String} (v : β)
    (l : List (String × β)) (h : k' ≠ k) :
    (alSet k v l).lookup k' = l.lookup k' := by
  have hb : (k' == k) = false := by
    rw [beq_eq_false_iff_ne]
    exact h
  induction l with
  | nil => simp [alSet, List.lookup, hb]
  | cons p ps ih =>
    obtain ⟨a, b⟩ := p
    by_cases hp : a = k
    · subst hp
      simp [alSet, List.lookup, hb]
    · cases hka : (k' == a) <;> simp [alSet, hp, List.lookup, hka, ih]

/-- Dict deletion removes the key's binding. -/
theorem lookup_alErase_self {β : Type} (k : String) (l : List (String × β)) :
    (alErase k l).lookup k = none := by
  induction l with
  | nil => simp [alErase]
  | cons p ps ih =>
    obtain ⟨a, b⟩ := p
    by_cases h : a = k
    · simpa [alErase, h] using ih
    · have hb : (k == a) = false := by
        rw [beq_eq_false_iff_ne]
        exact fun he => h he.symm
      simpa [alErase, h, List.lookup, hb] using ih

/-- After `_remove_entry` the key is absent from the store. -/
theorem removeEntry_lookup_self (k : String) (s : CacheState) :
    (removeEntry k s).cache.lookup k = none := by
  unfold removeEntry
  cases h : s.cache.lookup k with
  | none => simpa using h
  | some e => simpa using lookup_alErase_self k s.cache

/-- The byte budget is a constant of `_remove_entry`. -/
theorem removeEntry_max (k : String) (s : CacheState) :
    (removeEntry k s).maxMemoryBytes = s.maxMemoryBytes := by
  unfold removeEntry
  cases s.cache.lookup k <;> simp

/-- The byte budget is a constant of the eviction scan. -/
theorem evictLoop_max (l : List (String × Int)) (s : CacheState) :
    (evictLoop l s).maxMemoryBytes = s.maxMemoryBytes := by
  induction l generalizing s with
  | nil => simp [evictLoop]
  | cons p ps ih =>
    obtain ⟨k, t⟩ := p
    unfold evictLoop
    split
    · rfl
    · split
      · rw [ih]
        simp [removeEntry_max]
      · rw [ih]

/-- The byte budget is a constant of `_enforce_memory_limit`. -/
theorem enforce_max (s : CacheState) :
    (enforceMemoryLimit s).maxMemoryBytes = s.maxMemoryBytes := by
  unfold enforceMemoryLimit
  split
  · rfl
  · exact evictLoop_max _ s

/-- Within the budget, `_enforce_memory_limit` is a no-op: its guard
`memory_usage_bytes <= max_memory_bytes` returns immediately.  This is
why a fresh insert that does not fit is rejected rather than making
room: usage can only exceed the budget after an oversized update. -/
theorem enforce_noop {s : CacheState}
    (h : s.memoryUsageBytes ≤ s.maxMemoryBytes) : enforceMemoryLimit s = s := by
  unfold enforceMemoryLimit
  rw [if_pos h]

/-- The byte budget is a constant of the `set` tail. -/
theorem storeEntry_max (key value cacheType : String) (customTtl : Option Int)
    (now : Int) (entrySize : Nat) (s : CacheState) :
    (storeEntry key value cacheType customTtl now entrySize s).maxMemoryBytes
      = s.maxMemoryBytes := by
  unfold storeEntry
  split
  · simp [removeEntry_max]
  · simp

/-- Storing a FRESH entry adds exactly its size to the usage counter. -/
theorem storeEntry_fresh_used (key value cacheType : String)
    (customTtl : Option Int) (now : Int) (entrySize : Nat) (s : CacheState)
    (hfresh : s.cache.lookup key = none) :
    (storeEntry key value cacheType customTtl now entrySize s).memoryUsageBytes
      = s.memoryUsageBytes + entrySize := by
  unfold storeEntry
  rw [if_neg (by simp [hfresh])]

/-- Storing a fresh entry leaves every other key's binding unchanged. -/
theorem storeEntry_fresh_lookup_ne (key value cacheType : String)
    (customTtl : Option Int) (now : Int) (entrySize : Nat) (s : CacheState)
    (hfresh : s.cache.lookup key = none) {k' : String} (hne : k' ≠ key) :
    (storeEntry key value cacheType customTtl now entrySize s).cache.lookup k'
      = s.cache.lookup k' := by
  unfold storeEntry
  rw [if_neg (by simp [hfresh])]
  exact lookup_alSet_ne _ _ hne

/-- A `set` of a NEW key that does not fit while usage is within the
budget is rejected outright: `_enforce_memory_limit` returns without
evicting, the recheck still fails, `set` returns false and the state is
exactly the pre-state. -/
theorem set_fresh_reject (content : Content) (value : String)
    (cacheType : String) (customTtl : Option Int) (now : Int) (s : CacheState)
    (h1 : s.cache.lookup (generateKey content cacheType) = none)
    (h2 : s.memoryUsageBytes ≤ s.maxMemoryBytes)
    (h3 : s.memoryUsageBytes + (calculateSize value : Int) > s.maxMemoryBytes) :
    set content value cacheType customTtl now s = (false, s) := by
  have hcond : (s.memoryUsageBytes + (calculateSize value : Int) > s.maxMemoryBytes) ∧
      ((s.cache.lookup (generateKey content cacheType)).isNone = true) :=
    ⟨h3, by simp [h1]⟩
  simp only [set]
  rw [if_pos hcond, enforce_noop h2, if_pos h3]

/-- A `set` of a new key that fits skips the budget branch and stores
unconditionally. -/
theorem set_fresh_fits (content : Content) (value : String)
    (cacheType : String) (customTtl : Option Int) (now : Int) (s : CacheState)
    (h2 : s.memoryUsageBytes + (calculateSize value : Int) ≤ s.maxMemoryBytes) :
    set content value cacheType customTtl now s =
      (true, storeEntry (generateKey content cacheType) value cacheType
        customTtl now (calculateSize value) s) := by
  simp only [set]
  rw [if_neg (fun hc => absurd hc.1 (not_lt.mpr h2))]

/-- Unfolding one step of `runSets`. -/
theorem runSets_cons (c : SetCall) (cs : List SetCall) (s : CacheState) :
    runSets (c :: cs) s =
      runSets cs (set c.content c.value c.cacheType c.customTtl c.now s).2 := rfl

/-- Main inductive invariant for C2: starting from a state within
budget, a sequence of `set` calls whose keys are pairwise distinct and
all absent from the store keeps `memoryUsageBytes ≤ maxMemoryBytes`. -/
theorem runSets_bounded (calls : List SetCall) (s : CacheState)
    (hb : s.memoryUsageBytes ≤ s.maxMemoryBytes)
    (hfresh : ∀ c ∈ calls, s.cache.lookup c.key = none)
    (hnodup : (calls.map SetCall.key).Nodup) :
    (runSets calls s).memoryUsageBytes ≤ (runSets calls s).maxMemoryBytes := by
  induction calls generalizing s with
  | nil => simpa [runSets]
  | cons c cs ih =>
    rw [runSets_cons]
    have hckey : s.cache.lookup (generateKey c.content c.cacheType) = none :=
      hfresh c (by simp)
    rw [List.map_cons, List.nodup_cons] at hnodup
    by_cases hfit : s.memoryUsageBytes + (calculateSize c.value : Int) > s.maxMemoryBytes
    · rw [set_fresh_reject c.content c.value c.cacheType c.customTtl c.now s hckey hb hfit]
      exact ih s hb (fun c' hc' => hfresh c' (by simp [hc'])) hnodup.2
    · rw [set_fresh_fits c.content c.value c.cacheType c.customTtl c.now s (not_lt.mp hfit)]
      refine ih _ ?_ ?_ hnodup.2
      · rw [storeEntry_fresh_used _ _ _ _ _ _ _ hckey, storeEntry_max]
        exact not_lt.mp hfit
      · intro c' hc'
        have hkeq : SetCall.key c = generateKey c.content c.cacheType := rfl
        have hne : SetCall.key c' ≠ generateKey c.content c.cacheType := by
          rw [← hkeq]
          exact fun he => hnodup.1 (he ▸ List.mem_map_of_mem SetCall.key hc')
        rw [storeEntry_fresh_lookup_ne _ _ _ _ _ _ _ hckey hne]
        exact hfresh c' (by simp [hc'])

/-- The byte budget is a constant of `runSets`. -/
theorem runSets_max (calls : List SetCall) (s : CacheState) :
    (runSets calls s).maxMemoryBytes = s.maxMemoryBytes := by
  induction calls generalizing s with
  | nil => rfl
  | cons c cs ih =>
    rw [runSets_cons, ih]
    simp only [set]
    split
    · split
      · exact enforce_max s
      · rw [storeEntry_max, enforce_max]
    · rw [storeEntry_max]

/-- State after the two C2 counterexample calls: a 6-byte value stored
under a key in a 10-byte budget, then updated IN PLACE by a 50-byte
value for the same key. -/
def c2after : Bool × CacheState :=
  set (.str "k") (String.mk (List.replicate 50 'c')) "default" none 1
    (set (.str "k") "aaaaaa" "default" none 0 (initBytes 10)).2

/-- C2, counterexample: a `set` that UPDATES an existing key bypasses
the budget check entirely.  With limitBytes = 10, storing a 6-byte value
and then updating the same key with a 50-byte value is ACCEPTED (both
calls return true) even though 50 bytes exceed the whole budget — so the
entry would not fit even after evicting every other entry — and leaves
usedBytes = 50 > 10 = limitBytes, refuting both the memory bound and the
never-accept-an-unfittable-set clause of the claim. -/
theorem oversized_update_accepted :
    (set (.str "k") "aaaaaa" "default" none 0 (initBytes 10)).1 = true ∧
    c2after.1 = true ∧
    c2after.2.memoryUsageBytes = 50 ∧
    c2after.2.maxMemoryBytes = 10 ∧
    (50 : Int) > c2after.2.maxMemoryBytes ∧
    ¬ c2after.2.memoryUsageBytes ≤ c2after.2.maxMemoryBytes := by
  refine ⟨by decide, by decide, by decide, by decide, by decide, by decide⟩

/-- C2, amended: restricted to sequences of `Set` calls whose generated
keys are pairwise distinct (no call updates an existing key), the memory
bound holds unconditionally: after any such sequence from an empty cache,
`usedBytes ≤ limitBytes` — no oversized overshoot can arise, because a
fresh-key `Set` that cannot fit is rejected, returns false, and leaves
the store unchanged (eviction never fires on this path: it only triggers
once usage already exceeds the budget).  A `Set` that updates an
existing key, by contrast, bypasses the budget check and can push
`usedBytes` above `limitBytes` without bound (see the counterexample). -/
theorem memory_bound_fresh_keys :
    (∀ (limitBytes : Int) (calls : List SetCall), 0 ≤ limitBytes →
      (calls.map SetCall.key).Nodup →
      (runSets calls (initBytes limitBytes)).memoryUsageBytes ≤ limitBytes) ∧
    (∀ content value cacheType customTtl now s,
      s.cache.lookup (generateKey content cacheType) = none →
      s.memoryUsageBytes ≤ s.maxMemoryBytes →
      s.memoryUsageBytes + (calculateSize value : Int) > s.maxMemoryBytes →
      set content value cacheType customTtl now s = (false, s)) := by
  constructor
  · intro limitBytes calls hL hnodup
    have h := runSets_bounded calls (initBytes limitBytes) (by simpa [initBytes])
      (fun c _ => by simp [initBytes]) hnodup
    rwa [runSets_max calls (initBytes limitBytes)] at h
  · exact set_fresh_reject

/-- Witness for C2 (amended): the three-insert scenario of the spec
stays within its 1000-byte budget, and a concrete unfittable fresh
insert is rejected with the store unchanged. -/
theorem memory_bound_fresh_keys_witness :
    (runSets [⟨.str "k1", v400, "default", none, 0⟩,
      ⟨.str "k2", v400, "default", none, 1⟩,
      ⟨.str "k3", v400, "default", none, 2⟩]
      (initBytes 1000)).memoryUsageBytes ≤ 1000 ∧
    set (.str "z") "aaaaaa" "default" none 0 (initBytes 3) =
      (false, initBytes 3) :=
  ⟨memory_bound_fresh_keys.1 1000 _ (by decide) (by decide),
   memory_bound_fresh_keys.2 (.str "z") "aaaaaa" "default" none 0
     (initBytes 3) (by decide) (by decide) (by decide)⟩

/-- Counters of `_remove_entry`: removing an entry never touches the
hit/miss/set/eviction counters. -/
theorem removeEntry_counters (k : String) (s : CacheState) :
    (removeEntry k s).sets = s.sets ∧ (removeEntry k s).evictions = s.evictions ∧
    (removeEntry k s).hits = s.hits ∧ (removeEntry k s).misses = s.misses := by
  unfold removeEntry
  cases s.cache.lookup k <;> simp

/-- The entry stored by the unconditional tail of `set` is found under
its key, with the value, type, creation time, resolved expiry, size and
zero access count the source writes. -/
theorem storeEntry_lookup_self (key value cacheType : String)
    (customTtl : Option Int) (now : Int) (entrySize : Nat) (s : CacheState) :
    (storeEntry key value cacheType customTtl now entrySize s).cache.lookup key
      = some ⟨value, cacheType, now,
          if resolveTtl cacheType customTtl > 0 then
            some (now + resolveTtl cacheType customTtl) else none,
          entrySize, 0⟩ := by
  simp only [storeEntry]
  exact lookup_alSet_self _ _ _

/-- Shape analysis of `set`: it either rejects with the post-enforcement
state, or stores through `storeEntry` (over the original state or the
post-enforcement state). -/
theorem set_cases (content : Content) (value cacheType : String)
    (customTtl : Option Int) (now : Int) (s : CacheState) :
    set content value cacheType customTtl now s = (false, enforceMemoryLimit s) ∨
    (set content value cacheType customTtl now s).2 =
      storeEntry (generateKey content cacheType) value cacheType customTtl now
        (calculateSize value) s ∨
    (set content value cacheType customTtl now s).2 =
      storeEntry (generateKey content cacheType) value cacheType customTtl now
        (calculateSize value) (enforceMemoryLimit s) := by
  simp only [set]
  split
  · split
    · exact Or.inl rfl
    · exact Or.inr (Or.inr rfl)
  · exact Or.inr (Or.inl rfl)

/-- A successful `set` leaves the fresh entry in the store under the
derived key. -/
theorem set_true_lookup (content : Content) (value cacheType : String)
    (customTtl : Option Int) (now : Int) (s : CacheState)
    (h : (set content value cacheType customTtl now s).1 = true) :
    (set content value cacheType customTtl now s).2.cache.lookup
        (generateKey content cacheType)
      = some ⟨value, cacheType, now,
          if resolveTtl cacheType customTtl > 0 then
            some (now + resolveTtl cacheType customTtl) else none,
          calculateSize value, 0⟩ := by
  rcases set_cases content value cacheType customTtl now s with hc | hc | hc
  · rw [hc] at h
    exact absurd h (by simp)
  · rw [hc]
    exact storeEntry_lookup_self _ _ _ _ _ _ _
  · rw [hc]
    exact storeEntry_lookup_self _ _ _ _ _ _ _

/-- C4: for an entry stored by `set` with resolved TTL t > 0, `get` at
any read time now2 ≤ createdAt + t returns the stored value (equality
with the expiry instant is not expired), while `get` at any now2 >
createdAt + t returns none, increments `misses` by one, and removes the
entry from the store as a side effect of that first late read. -/
theorem ttl_expiry_semantics (content : Content) (value cacheType : String)
    (customTtl : Option Int) (now : Int) (s : CacheState)
    (ht : 0 < resolveTtl cacheType customTtl)
    (hset : (set content value cacheType customTtl now s).1 = true) :
    (∀ now2 : Int, now2 ≤ now + resolveTtl cacheType customTtl →
      (get content cacheType now2
        (set content value cacheType customTtl now s).2).1 = some value) ∧
    (∀ now2 : Int, now + resolveTtl cacheType customTtl < now2 →
      (get content cacheType now2
        (set content value cacheType customTtl now s).2).1 = none ∧
      (get content cacheType now2
        (set content value cacheType customTtl now s).2).2.misses =
        (set content value cacheType customTtl now s).2.misses + 1 ∧
      (get content cacheType now2
          (set content value cacheType customTtl now s).2).2.cache.lookup
        (generateKey content cacheType) = none) := by
  have hl := set_true_lookup content value cacheType customTtl now s hset
  rw [if_pos ht] at hl
  constructor
  · intro now2 hle
    have hexp : isExpired now2
        ⟨value, cacheType, now, some (now + resolveTtl cacheType customTtl),
          calculateSize value, 0⟩ = false := by
      simp [isExpired]
      omega
    simp [get, hl, hexp]
  · intro now2 hgt
    have hexp : isExpired now2
        ⟨value, cacheType, now, some (now + resolveTtl cacheType customTtl),
          calculateSize value, 0⟩ = true := by
      simp [isExpired]
      omega
    have hrc := removeEntry_counters (generateKey content cacheType)
      (set content value cacheType customTtl now s).2
    have hrl := removeEntry_lookup_self (generateKey content cacheType)
      (set content value cacheType customTtl now s).2
    simp [get, hl, hexp, hrc.2.2.2, hrl]

/-- Witness for C4: a concrete entry stored under the 'default' TTL of
1800 s is returned at the expiry instant and gone one second later. -/
theorem ttl_expiry_semantics_witness :
    (get (.str "x") "default" 1800
      (set (.str "x") "val" "default" none 0 (initBytes 100)).2).1 = some "val" ∧
    (get (.str "x") "default" 1801
      (set (.str "x") "val" "default" none 0 (initBytes 100)).2).1 = none :=
  have h := ttl_expiry_semantics (.str "x") "val" "default" none 0
    (initBytes 100) (by decide) (by decide)
  ⟨h.1 1800 (by decide), (h.2 1801 (by decide)).1⟩

/-- Keys derived for the same content under different categories differ:
the pre-digest strings `cat ++ ":" ++ canonical` differ whenever the
categories do, and the digest is injective. -/
theorem generateKey_cat_ne (content : Content) {cat1 cat2 : String}
    (h : cat1 ≠ cat2) :
    generateKey content cat1 ≠ generateKey content cat2 := by
  intro he
  apply h
  have hd := congrArg String.data he
  simp only [generateKey, String.data_append] at hd
  exact String.ext (List.append_cancel_right (List.append_cancel_right hd))

/-- `_enforce_memory_limit` on an empty cache is the identity. -/
theorem enforce_initBytes (limitBytes : Int) :
    enforceMemoryLimit (initBytes limitBytes) = initBytes limitBytes := by
  unfold enforceMemoryLimit
  split
  · rfl
  · rfl

/-- C5: the derived key is independent of structural field order — a
`set` under content c1 followed by a `get` under any content c2 with the
same canonical serialization (in particular a field-reordered dict)
returns the stored value — while a `get` under a DIFFERENT category for
the same content derives a different key and returns absent. -/
theorem key_stability :
    (∀ (c1 c2 : Content) (cat value : String) (customTtl : Option Int)
        (now : Int) (s : CacheState),
      canonicalForm c1 = canonicalForm c2 →
      (set c1 value cat customTtl now s).1 = true →
      (get c2 cat now (set c1 value cat customTtl now s).2).1 = some value) ∧
    (∀ (content : Content) (value cat1 cat2 : String) (customTtl : Option Int)
        (now now2 limitBytes : Int),
      cat1 ≠ cat2 →
      (get content cat2 now2
        (set content value cat1 customTtl now (initBytes limitBytes)).2).1
        = none) := by
  constructor
  · intro c1 c2 cat value customTtl now s hcanon hset
    have hk : generateKey c2 cat = generateKey c1 cat := by
      simp [generateKey, hcanon]
    have hl := set_true_lookup c1 value cat customTtl now s hset
    by_cases hpos : resolveTtl cat customTtl > 0
    · rw [if_pos hpos] at hl
      have hexp : isExpired now
          ⟨value, cat, now, some (now + resolveTtl cat customTtl),
            calculateSize value, 0⟩ = false := by
        simp [isExpired]
        omega
      simp [get, hk, hl, hexp]
    · rw [if_neg hpos] at hl
      have hexp : isExpired now
          ⟨value, cat, now, none, calculateSize value, 0⟩ = false := by
        simp [isExpired]
      simp [get, hk, hl, hexp]
  · intro content value cat1 cat2 customTtl now now2 limitBytes hne
    have hkne : generateKey content cat2 ≠ generateKey content cat1 :=
      generateKey_cat_ne content (fun he => hne he.symm)
    have hfresh : (initBytes limitBytes).cache.lookup
        (generateKey content cat1) = none := by
      simp [initBytes]
    rcases set_cases content value cat1 customTtl now (initBytes limitBytes)
      with hc | hc | hc
    · rw [hc]
      simp only [get]
      rw [enforce_initBytes]
      simp [initBytes]
    · rw [hc]
      rw [show (get content cat2 now2 (storeEntry (generateKey content cat1)
          value cat1 customTtl now (calculateSize value)
          (initBytes limitBytes))).1 = _ from rfl]
      simp only [get]
      rw [storeEntry_fresh_lookup_ne _ _ _ _ _ _ _ hfresh hkne]
      simp [initBytes]
    · rw [hc, enforce_initBytes]
      simp only [get]
      rw [storeEntry_fresh_lookup_ne _ _ _ _ _ _ _ hfresh hkne]
      simp [initBytes]

/-- Witness for C5: the spec's field-reordered dict example, plus a
cross-category miss for the same content. -/
theorem key_stability_witness :
    (get (.dict [("b", .num 2), ("a", .num 1)]) "analysis" 0
      (set (.dict [("a", .num 1), ("b", .num 2)]) "v" "analysis" none 0
        (initBytes 100)).2).1 = some "v" ∧
    (get (.dict [("a", .num 1), ("b", .num 2)]) "search" 0
      (set (.dict [("a", .num 1), ("b", .num 2)]) "v" "analysis" none 0
        (initBytes 100)).2).1 = none :=
  ⟨key_stability.1 (.dict [("a", .num 1), ("b", .num 2)])
      (.dict [("b", .num 2), ("a", .num 1)]) "analysis" "v" none 0
      (initBytes 100) (by decide) (by decide),
   key_stability.2 (.dict [("a", .num 1), ("b", .num 2)]) "v" "analysis"
      "search" none 0 0 100 (by decide)⟩

/-- C9: `get` never changes the `sets` or `evictions` counters — in
particular the lazy-expiry removal performed by a late `get` counts only
a miss, never an eviction — and every `get` bumps exactly one of
`hits`/`misses` by one. -/
theorem get_preserves_sets_evictions (content : Content) (cacheType : String)
    (now : Int) (s : CacheState) :
    (get content cacheType now s).2.sets = s.sets ∧
    (get content cacheType now s).2.evictions = s.evictions ∧
    (get content cacheType now s).2.hits + (get content cacheType now s).2.misses
      = s.hits + s.misses + 1 := by
  unfold get
  cases h : s.cache.lookup (generateKey content cacheType) with
  | none =>
    simp [h]
    omega
  | some e =>
    have hc := removeEntry_counters (generateKey content cacheType) s
    cases hexp : isExpired now e
    · simp [h, hexp]
      omega
    · simp [h, hexp, hc.1, hc.2.1, hc.2.2.1, hc.2.2.2]
      omega

end NewsCache
